import Mathlib

/-!
Verification of the typed document-access layer of the Psylio-style backend
(`src/main.py`, `src/schemas.py`): the identifier normalizer `to_str_id`, the
query (predicate) builders of the listing endpoints, schema validation of the
pydantic models, and the therapist-creation write path.

Documents of the schema-less store are modelled as association lists from
field names to dynamically-typed values; store-native identifiers (`ObjectId`)
are a separate scalar constructor carrying their hex-string form. A value is a
scalar or a list of scalars, matching the document shapes of this backend
(strings, booleans, integers, identifiers, sequences of such).
-/

namespace Psylio

/-- A dynamically-typed scalar store value: Python `None`, booleans, integers,
strings, and BSON `ObjectId`s (carried as their hex string). -/
inductive Scal where
  | none : Scal
  | bool : Bool → Scal
  | int : Int → Scal
  | str : String → Scal
  | oid : String → Scal
deriving Repr, DecidableEq

/-- A document field value: a scalar or a list of scalars. -/
inductive Value where
  | scal : Scal → Value
  | list : List Scal → Value
deriving Repr, DecidableEq

/-- A document: a Python dict modelled as an association list, field order
kept as Python keeps insertion order. -/
abbrev Doc := List (String × Value)

/-- `d.get(k)`: first binding of key `k`, if any. -/
def getV (d : Doc) (k : String) : Option Value :=
  (d.find? (fun p => p.1 = k)).map (·.2)

/-- `k in d`. -/
def hasK (d : Doc) (k : String) : Bool :=
  (d.find? (fun p => p.1 = k)).isSome

/-- `d.pop(k)` (the removal part): drop every binding of key `k`. -/
def eraseK (d : Doc) (k : String) : Doc :=
  d.filter (fun p => p.1 ≠ k)

/-- `d[k] = v`: replace the binding of `k` in place if present (Python keeps
the key's position), else append it at the end. -/
def setV (d : Doc) (k : String) (v : Value) : Doc :=
  if hasK d k then d.map (fun p => if p.1 = k then (k, v) else p)
  else d ++ [(k, v)]

/-- Python truthiness of a scalar: `None`, `0`, `""` and `False` are falsy;
an `ObjectId` is always truthy. -/
def truthyS : Scal → Bool
  | .none => false
  | .bool b => b
  | .int n => n != 0
  | .str s => s != ""
  | .oid _ => true

/-- Python truthiness of a value: a list is truthy iff non-empty. -/
def truthy : Value → Bool
  | .scal s => truthyS s
  | .list l => !l.isEmpty

/-- Python `repr` of a scalar (used by `str` on lists). `repr(ObjectId(h))`
is `ObjectId('h')`. -/
def sRepr : Scal → String
  | .none => "None"
  | .bool true => "True"
  | .bool false => "False"
  | .int n => toString n
  | .str s => "'" ++ s ++ "'"
  | .oid h => "ObjectId('" ++ h ++ "')"

/-- Python `str` of a value: `str(ObjectId(h))` is the hex string `h`;
strings are returned as-is; other scalars and lists render as their `repr`. -/
def pyStr : Value → String
  | .scal (.str s) => s
  | .scal (.oid h) => h
  | .scal s => sRepr s
  | .list l => "[" ++ String.intercalate ", " (l.map sRepr) ++ "]"

/-- One element of the list comprehension in `to_str_id`:
`str(x) if isinstance(x, ObjectId) else x`. -/
def convElem : Scal → Scal
  | .oid h => .str h
  | s => s

/-- The per-field rewriting of `to_str_id`'s loop: a scalar `ObjectId` becomes
its string; a list has `ObjectId` elements converted element-wise; everything
else is untouched. -/
def convVal : Value → Value
  | .scal (.oid h) => .scal (.str h)
  | .scal s => .scal s
  | .list l => .list (l.map convElem)

/-- The whole `for k, v in list(d.items())` loop of `to_str_id`: every field
value is rewritten by `convVal` (keys untouched). -/
def mapConv (d : Doc) : Doc :=
  d.map (fun p => (p.1, convVal p.2))

/-- The `if d.get("_id"): d["id"] = str(d.pop("_id"))` step of `to_str_id`:
when the native field holds a truthy value, it is removed and its string
form is re-inserted under `"id"`. -/
def normMove (d : Doc) : Doc :=
  match getV d "_id" with
  | some v =>
    if truthy v then setV (eraseK d "_id") "id" (.scal (.str (pyStr v))) else d
  | Option.none => d

/-- `to_str_id` on a non-empty dict: the identifier move followed by the
nested-`ObjectId` conversion loop over every field. -/
def normDoc (d : Doc) : Doc :=
  mapConv (normMove d)

/-- A scalar is a store-native identifier. -/
def isOid : Scal → Bool
  | .oid _ => true
  | _ => false

/-- A value holds no store-native identifier, neither as a scalar nor as an
element of a sequence. -/
def valueOidFree : Value → Bool
  | .scal s => !isOid s
  | .list l => l.all (fun e => !isOid e)

/-- No field of the document holds a store-native identifier (scalar or
sequence element). -/
def docOidFree (d : Doc) : Bool :=
  d.all (fun p => valueOidFree p.2)

/-- `to_str_id(doc)` of `src/main.py`: a falsy argument (`None`, or the empty
dict) is returned unchanged; otherwise the document is copied and normalized. -/
def to_str_id : Option Doc → Option Doc
  | Option.none => Option.none
  | some d => if d.isEmpty then some d else some (normDoc d)

/-! ### Case-insensitive substring matching

`src/main.py` lowers search parameters to MongoDB `$regex` conditions with
option `"i"`. Per the spec's Filter Predicate Builder contract these express
case-insensitive substring matches (the store's own query execution is outside
the repository); search strings in this domain are plain text without regex
metacharacters. -/

/-- `leadMatch p s`: `p` is an initial run of `s`. -/
def leadMatch : List Char → List Char → Bool
  | [], _ => true
  | _ :: _, [] => false
  | a :: p, b :: s => a = b && leadMatch p s

/-- `hasSub p s`: `p` occurs as a contiguous run somewhere in `s`. -/
def hasSub (p : List Char) : List Char → Bool
  | [] => leadMatch p []
  | c :: s => leadMatch p (c :: s) || hasSub p s

/-- Lower-case a string character-wise (the effect of a case-insensitive
comparison). -/
def lowerChars (s : String) : List Char :=
  s.data.map Char.toLower

/-- Modelled from the spec: a MongoDB `{"$regex": pat, "$options": "i"}`
condition on a string value means `pat` occurs as a case-insensitive
substring of the value (the store's regex engine is not part of the
repository; §4.3 of the spec fixes this semantics). -/
def strContainsCI (hay pat : String) : Bool :=
  hasSub (lowerChars pat) (lowerChars hay)

/-! ### The filter predicate builders

`list_therapists`, `list_bookings` and `list_messages` translate their
optional query parameters into MongoDB query dicts. The query is modelled as
a conjunction of clauses; each clause constrains one field, or (for `$or`)
is a disjunction of per-field conditions. -/

/-- A MongoDB field condition as built by `src/main.py`: direct equality,
`{"$regex": pat, "$options": "i"}`, or
`{"$elemMatch": {"$regex": pat, "$options": "i"}}`. -/
inductive QCond where
  | eqVal : Value → QCond
  | regexI : String → QCond
  | elemMatchRegexI : String → QCond
deriving Repr, DecidableEq

/-- One key of the query dict: a single field condition, or the `"$or"` key
holding a list of single-field conditions. -/
inductive QClause where
  | field : String → QCond → QClause
  | disj : List (String × QCond) → QClause
deriving Repr, DecidableEq

/-- The whole query dict: the conjunction of its clauses. -/
abbrev Query := List QClause

/-- Modelled from the spec: evaluation of one field condition against a
document (the store's query execution is not part of the repository; §4.3
fixes the semantics: equality is direct equality on the stored value,
`$regex`+`i` on a scalar field is a case-insensitive substring match,
`$elemMatch` with such a regex holds iff some string element matches). -/
def evalCond (d : Doc) (k : String) : QCond → Bool
  | .eqVal v => getV d k == some v
  | .regexI pat =>
    match getV d k with
    | some (.scal (.str s)) => strContainsCI s pat
    | _ => false
  | .elemMatchRegexI pat =>
    match getV d k with
    | some (.list l) =>
      l.any (fun e =>
        match e with
        | .str s => strContainsCI s pat
        | _ => false)
    | _ => false

/-- Evaluation of one clause of the query dict. -/
def evalClause (d : Doc) : QClause → Bool
  | .field k c => evalCond d k c
  | .disj alts => alts.any (fun p => evalCond d p.1 p.2)

/-- Evaluation of the whole query: all clauses must hold. -/
def evalQuery (q : Query) (d : Doc) : Bool :=
  q.all (evalClause d)

/-- The query dict built by `list_therapists` from its five optional
parameters, following `src/main.py` lines 95–110: a fixed `role` equality,
then — for each parameter that is truthy (strings: supplied and non-empty;
booleans: supplied, i.e. not `None`) — its clause. -/
def list_therapists_query (search specialty language : Option String)
    (virt inp : Option Bool) : Query :=
  [.field "role" (.eqVal (.scal (.str "therapist")))]
  ++ (match search with
      | some s =>
        if s ≠ "" then
          [.disj [("name", .regexI s), ("bio", .regexI s),
                  ("specialties", .elemMatchRegexI s)]]
        else []
      | Option.none => [])
  ++ (match specialty with
      | some s => if s ≠ "" then [.field "specialties" (.elemMatchRegexI s)] else []
      | Option.none => [])
  ++ (match language with
      | some s => if s ≠ "" then [.field "languages" (.elemMatchRegexI s)] else []
      | Option.none => [])
  ++ (match virt with
      | some b => [.field "virtual" (.eqVal (.scal (.bool b)))]
      | Option.none => [])
  ++ (match inp with
      | some b => [.field "in_person" (.eqVal (.scal (.bool b)))]
      | Option.none => [])

/-- The query dict built by `list_bookings` (`src/main.py` lines 147–151):
string parameters are tested by truthiness; `client_email` is inserted as its
string form. -/
def list_bookings_query (therapist_id client_email : Option String) : Query :=
  (match therapist_id with
   | some s => if s ≠ "" then [.field "therapist_id" (.eqVal (.scal (.str s)))] else []
   | Option.none => [])
  ++ (match client_email with
      | some s => if s ≠ "" then [.field "client_email" (.eqVal (.scal (.str s)))] else []
      | Option.none => [])

/-- The query dict built by `list_messages` (`src/main.py` lines 169–175). -/
def list_messages_query (therapist_id client_email thread_id : Option String) :
    Query :=
  (match therapist_id with
   | some s => if s ≠ "" then [.field "therapist_id" (.eqVal (.scal (.str s)))] else []
   | Option.none => [])
  ++ (match client_email with
      | some s => if s ≠ "" then [.field "client_email" (.eqVal (.scal (.str s)))] else []
      | Option.none => [])
  ++ (match thread_id with
      | some s => if s ≠ "" then [.field "thread_id" (.eqVal (.scal (.str s)))] else []
      | Option.none => [])

/-! ### The validation layer

`src/schemas.py` declares the entity shapes as pydantic models; the pydantic
engine itself is library code outside the repository. Validation is therefore
modelled from the spec's Validation Layer contract (§4.2) applied to the
field declarations of `src/schemas.py`: required fields (declared without a
default) must be present and non-null, email-string fields must match
local-part `@` domain with a dot in the domain, bounded integers must lie in
their declared inclusive range, sequence fields with a `default_factory=list`
declaration default to the empty sequence when absent, unknown fields are
ignored. -/

/-- The validation-time error taxonomy of the spec (§7). -/
inductive ValidationError where
  | MissingFieldError : String → ValidationError
  | InvalidFormatError : String → ValidationError
  | RangeError : String → Int → Int → ValidationError
deriving Repr, DecidableEq

/-- Split a character list at every occurrence of `c` (the pieces between
occurrences, in order; `n` occurrences yield `n + 1` pieces). -/
def splitAtChar (c : Char) : List Char → List (List Char)
  | [] => [[]]
  | a :: rest =>
    match splitAtChar c rest with
    | h :: t => if a = c then [] :: h :: t else (a :: h) :: t
    | [] => if a = c then [[], []] else [[a]]

/-- Modelled from the spec: email syntax is local-part `"@"` domain with at
least one dot in the domain (the pydantic `EmailStr` validator is not part of
the repository). -/
def isValidEmail (s : String) : Bool :=
  match splitAtChar '@' s.data with
  | [l, d] => !l.isEmpty && !d.isEmpty && d.contains '.'
  | _ => false

/-- A required string field: must be present and non-null. -/
def reqStr (raw : Doc) (k : String) : Except ValidationError String :=
  match getV raw k with
  | some (.scal (.str s)) => .ok s
  | some (.scal .none) => .error (.MissingFieldError k)
  | Option.none => .error (.MissingFieldError k)
  | some _ => .error (.InvalidFormatError k)

/-- A required email-string field: present, non-null, and of valid email
syntax. -/
def reqEmail (raw : Doc) (k : String) : Except ValidationError String :=
  match getV raw k with
  | some (.scal (.str s)) =>
    if isValidEmail s then .ok s else .error (.InvalidFormatError k)
  | some (.scal .none) => .error (.MissingFieldError k)
  | Option.none => .error (.MissingFieldError k)
  | some _ => .error (.InvalidFormatError k)

/-- An optional string field (declared `Optional[str] = None`). -/
def optStr (raw : Doc) (k : String) : Except ValidationError (Option String) :=
  match getV raw k with
  | Option.none => .ok Option.none
  | some (.scal .none) => .ok Option.none
  | some (.scal (.str s)) => .ok (some s)
  | some _ => .error (.InvalidFormatError k)

/-- An optional integer field (declared `Optional[int] = None`). -/
def optInt (raw : Doc) (k : String) : Except ValidationError (Option Int) :=
  match getV raw k with
  | Option.none => .ok Option.none
  | some (.scal .none) => .ok Option.none
  | some (.scal (.int n)) => .ok (some n)
  | some _ => .error (.InvalidFormatError k)

/-- A boolean field with a declared default: absent means the default. -/
def defBool (raw : Doc) (k : String) (dflt : Bool) : Except ValidationError Bool :=
  match getV raw k with
  | Option.none => .ok dflt
  | some (.scal (.bool b)) => .ok b
  | some _ => .error (.InvalidFormatError k)

/-- A string field with a declared default value: absent means the default. -/
def defStr (raw : Doc) (k : String) (dflt : String) :
    Except ValidationError String :=
  match getV raw k with
  | Option.none => .ok dflt
  | some (.scal (.str s)) => .ok s
  | some _ => .error (.InvalidFormatError k)

/-- Check every element of a sequence field against `str`. -/
def elemsStr (k : String) : List Scal → Except ValidationError (List String)
  | [] => .ok []
  | .str s :: rest => (elemsStr k rest).map (fun t => s :: t)
  | _ :: _ => .error (.InvalidFormatError k)

/-- A sequence-of-string field declared with `default_factory=list`: absent
means the empty sequence; each element is validated as a string. -/
def seqStr (raw : Doc) (k : String) : Except ValidationError (List String) :=
  match getV raw k with
  | Option.none => .ok []
  | some (.list l) => elemsStr k l
  | some _ => .error (.InvalidFormatError k)

/-- A required sequence-of-string field (declared `Field(...)`, no default):
absence fails with `MissingFieldError`. -/
def reqSeqStr (raw : Doc) (k : String) : Except ValidationError (List String) :=
  match getV raw k with
  | Option.none => .error (.MissingFieldError k)
  | some (.scal .none) => .error (.MissingFieldError k)
  | some (.list l) => elemsStr k l
  | some _ => .error (.InvalidFormatError k)

/-- A required bounded-integer field (declared `Field(..., ge=lo, le=hi)`):
present, non-null, and within the inclusive range. -/
def reqIntRange (raw : Doc) (k : String) (lo hi : Int) :
    Except ValidationError Int :=
  match getV raw k with
  | some (.scal (.int n)) =>
    if lo ≤ n ∧ n ≤ hi then .ok n else .error (.RangeError k lo hi)
  | some (.scal .none) => .error (.MissingFieldError k)
  | Option.none => .error (.MissingFieldError k)
  | some _ => .error (.InvalidFormatError k)

/-- The validated `User` record of `src/schemas.py`. -/
structure User where
  role : String
  name : String
  email : String
  photo_url : Option String := Option.none
  bio : Option String := Option.none
  specialties : List String := []
  modalities : List String := []
  languages : List String := []
  location : Option String := Option.none
  virtual : Bool := true
  in_person : Bool := false
  fee_min : Option Int := Option.none
  fee_max : Option Int := Option.none
  years_experience : Option Int := Option.none
  certifications : List String := []
deriving Repr, DecidableEq

/-- Validation of a raw input against the `User` model, field declarations
as in `src/schemas.py` lines 12–28 in declaration order. -/
def validateUser (raw : Doc) : Except ValidationError User := do
  let role ← reqStr raw "role"
  let name ← reqStr raw "name"
  let email ← reqEmail raw "email"
  let photo_url ← optStr raw "photo_url"
  let bio ← optStr raw "bio"
  let specialties ← seqStr raw "specialties"
  let modalities ← seqStr raw "modalities"
  let languages ← seqStr raw "languages"
  let location ← optStr raw "location"
  let virtual ← defBool raw "virtual" true
  let in_person ← defBool raw "in_person" false
  let fee_min ← optInt raw "fee_min"
  let fee_max ← optInt raw "fee_max"
  let years_experience ← optInt raw "years_experience"
  let certifications ← seqStr raw "certifications"
  return { role, name, email, photo_url, bio, specialties, modalities,
           languages, location, virtual, in_person, fee_min, fee_max,
           years_experience, certifications }

/-- The validated `TherapistAvailability` record of `src/schemas.py`. -/
structure TherapistAvailability where
  therapist_id : String
  weekday : Int
  time_ranges : List String
  virtual : Bool := true
  in_person : Bool := false
deriving Repr, DecidableEq

/-- Validation against the `TherapistAvailability` model
(`src/schemas.py` lines 31–36): `weekday` is `Field(..., ge=0, le=6)` and
`time_ranges` is `Field(...)` — required, with no default. -/
def validateTherapistAvailability (raw : Doc) :
    Except ValidationError TherapistAvailability := do
  let therapist_id ← reqStr raw "therapist_id"
  let weekday ← reqIntRange raw "weekday" 0 6
  let time_ranges ← reqSeqStr raw "time_ranges"
  let virtual ← defBool raw "virtual" true
  let in_person ← defBool raw "in_person" false
  return { therapist_id, weekday, time_ranges, virtual, in_person }

/-- The validated `BookingRequest` record of `src/schemas.py`. -/
structure BookingRequest where
  therapist_id : String
  client_name : String
  client_email : String
  note : Option String := Option.none
  preferred_times : List String := []
  status : String := "pending"
deriving Repr, DecidableEq

/-- Validation against the `BookingRequest` model
(`src/schemas.py` lines 39–45): `preferred_times` has `default_factory=list`
and `status` defaults to `"pending"`. -/
def validateBookingRequest (raw : Doc) :
    Except ValidationError BookingRequest := do
  let therapist_id ← reqStr raw "therapist_id"
  let client_name ← reqStr raw "client_name"
  let client_email ← reqEmail raw "client_email"
  let note ← optStr raw "note"
  let preferred_times ← seqStr raw "preferred_times"
  let status ← defStr raw "status" "pending"
  return { therapist_id, client_name, client_email, note, preferred_times,
           status }

/-! ### The therapist-creation write path

`create_therapist` (`src/main.py` lines 116–121) receives a structurally
validated `User` (FastAPI validates the body against the model before calling
the handler), raises `HTTPException(400, "role must be 'therapist'")` when the
role differs from `"therapist"` — the spec's `BusinessRuleError(rule)` — and
only then inserts into the store. The store is modelled as the list of
inserted `user` records; `insert` appends and returns the new identifier. -/

/-- The business-rule failure of the write path (§4.2, §7 of the spec: the
source raises `HTTPException(status_code=400, detail=rule)`). -/
inductive BusinessRuleError where
  | mk : String → BusinessRuleError
deriving Repr, DecidableEq

/-- The `user` collection: the sequence of inserted records. -/
abbrev UserStore := List User

/-- `create_therapist(therapist)`: reject a non-therapist role before any
store operation; otherwise insert and return the new record's identifier
(its position in the collection). The first component is the store after the
call — unchanged when the rule fails, since the exception is raised before
`create_document`. -/
def create_therapist (store : UserStore) (therapist : User) :
    UserStore × Except BusinessRuleError Nat :=
  if therapist.role ≠ "therapist" then
    (store, .error (.mk "role must be 'therapist'"))
  else
    (store ++ [therapist], .ok store.length)

/-- The spec's reading of a free-text match on a scalar text field: the field
holds a string, and the lower-cased search string occurs contiguously in the
lower-cased value. -/
def fieldMatchCI (d : Doc) (k s : String) : Prop :=
  ∃ v l r, getV d k = some (.scal (.str v)) ∧
    lowerChars v = l ++ lowerChars s ++ r

/-- The spec's reading of a free-text match on a sequence-of-string field:
some string element contains the search string case-insensitively. -/
def seqFieldMatchCI (d : Doc) (k s : String) : Prop :=
  ∃ es x l r, getV d k = some (.list es) ∧ Scal.str x ∈ es ∧
    lowerChars x = l ++ lowerChars s ++ r

/-! ## Theorems -/

/-! ### Substring matching -/

theorem leadMatch_iff (p s : List Char) :
    leadMatch p s = true ↔ ∃ r, s = p ++ r := by
  induction p generalizing s with
  | nil => simp [leadMatch]
  | cons a p ih =>
    cases s with
    | nil => simp [leadMatch]
    | cons b s =>
      simp only [leadMatch, Bool.and_eq_true, decide_eq_true_eq, ih]
      constructor
      · rintro ⟨rfl, r, rfl⟩; exact ⟨r, rfl⟩
      · rintro ⟨r, h⟩
        cases h
        exact ⟨rfl, r, rfl⟩

theorem hasSub_iff (p s : List Char) :
    hasSub p s = true ↔ ∃ l r, s = l ++ p ++ r := by
  induction s with
  | nil =>
    simp only [hasSub, leadMatch_iff]
    constructor
    · rintro ⟨r, h⟩
      exact ⟨[], r, by simpa using h⟩
    · rintro ⟨l, r, h⟩
      refine ⟨r, ?_⟩
      have := List.append_eq_nil.mp h.symm
      have h1 := List.append_eq_nil.mp this.1
      simp [h1.1, h1.2, this.2]
  | cons c s ih =>
    simp only [hasSub, Bool.or_eq_true, leadMatch_iff, ih]
    constructor
    · rintro (⟨r, h⟩ | ⟨l, r, rfl⟩)
      · exact ⟨[], r, by simpa using h⟩
      · exact ⟨c :: l, r, rfl⟩
    · rintro ⟨l, r, h⟩
      cases l with
      | nil => exact Or.inl ⟨r, by simpa using h⟩
      | cons x l =>
        right
        simp only [List.cons_append] at h
        injection h with h1 h2
        exact ⟨l, r, h2⟩

/-- `strContainsCI hay pat` holds exactly when the lower-cased pattern occurs
contiguously inside the lower-cased haystack. -/
theorem strContainsCI_iff (hay pat : String) :
    strContainsCI hay pat = true ↔
      ∃ l r, lowerChars hay = l ++ lowerChars pat ++ r := by
  exact hasSub_iff (lowerChars pat) (lowerChars hay)

/-! ### Document-operation lemmas -/

theorem getV_nil (k : String) : getV [] k = Option.none := rfl

theorem hasK_eq_isSome (d : Doc) (k : String) :
    hasK d k = (getV d k).isSome := by
  simp [hasK, getV]

theorem getV_mapConv (d : Doc) (k : String) :
    getV (mapConv d) k = (getV d k).map convVal := by
  induction d with
  | nil => rfl
  | cons p d ih =>
    by_cases h : p.1 = k
    · simp [getV, mapConv, List.find?_cons, h]
    · simpa [getV, mapConv, List.find?_cons, h] using ih

theorem hasK_mapConv (d : Doc) (k : String) :
    hasK (mapConv d) k = hasK d k := by
  simp [hasK_eq_isSome, getV_mapConv]

theorem convElem_convElem (s : Scal) : convElem (convElem s) = convElem s := by
  cases s <;> rfl

theorem convVal_convVal (v : Value) : convVal (convVal v) = convVal v := by
  cases v with
  | scal s => cases s <;> rfl
  | list l => simp [convVal, List.map_map, Function.comp, convElem_convElem]

theorem mapConv_mapConv (d : Doc) : mapConv (mapConv d) = mapConv d := by
  simp [mapConv, List.map_map, Function.comp, convVal_convVal]

theorem convVal_of_falsy (v : Value) (h : truthy v = false) : convVal v = v := by
  cases v with
  | scal s => cases s <;> simp_all [truthy, truthyS, convVal]
  | list l =>
    cases l with
    | nil => rfl
    | cons a l => simp [truthy] at h

theorem getV_cons (p : String × Value) (d : Doc) (k : String) :
    getV (p :: d) k = if p.1 = k then some p.2 else getV d k := by
  by_cases h : p.1 = k <;> simp [getV, h]

theorem hasK_cons (p : String × Value) (d : Doc) (k : String) :
    hasK (p :: d) k = (decide (p.1 = k) || hasK d k) := by
  by_cases h : p.1 = k <;> simp [hasK, h]

theorem getV_replace_self (d : Doc) (k : String) (v : Value)
    (hk : hasK d k = true) :
    getV (d.map (fun p => if p.1 = k then (k, v) else p)) k = some v := by
  induction d with
  | nil => simp [hasK] at hk
  | cons p d ih =>
    by_cases h : p.1 = k
    · simp [getV_cons, h]
    · rw [hasK_cons] at hk
      simp only [h, decide_eq_true_eq, Bool.false_or] at hk
      simpa [getV_cons, h] using ih hk

theorem getV_replace_of_ne (d : Doc) (k k2 : String) (v : Value) (h : k2 ≠ k) :
    getV (d.map (fun p => if p.1 = k then (k, v) else p)) k2 = getV d k2 := by
  induction d with
  | nil => rfl
  | cons p d ih =>
    by_cases hp : p.1 = k
    · simp only [List.map_cons, if_pos hp]
      rw [getV_cons, getV_cons, if_neg (by simpa using Ne.symm h),
        if_neg (by rw [hp]; exact Ne.symm h)]
      exact ih
    · simp only [List.map_cons, if_neg hp]
      rw [getV_cons, getV_cons]
      by_cases hp2 : p.1 = k2
      · simp [hp2]
      · simpa [hp2] using ih

theorem getV_append_single_self (d : Doc) (k : String) (v : Value)
    (hk : hasK d k = false) :
    getV (d ++ [(k, v)]) k = some v := by
  rw [hasK_eq_isSome] at hk
  have hnone : getV d k = Option.none := by
    cases hg : getV d k with
    | none => rfl
    | some w => rw [hg] at hk; simp at hk
  unfold getV at hnone ⊢
  rw [List.find?_append]
  rcases hf : List.find? (fun p => decide (p.1 = k)) d with _ | q
  · rw [hf]; simp
  · rw [hf] at hnone; simp at hnone

theorem getV_append_single_of_ne (d : Doc) (k k2 : String) (v : Value)
    (h : k2 ≠ k) :
    getV (d ++ [(k, v)]) k2 = getV d k2 := by
  unfold getV
  rw [List.find?_append]
  have : List.find? (fun p => decide (p.1 = k2)) [(k, v)] = Option.none := by
    simp [List.find?, Ne.symm h]
  rw [this, Option.or_none]

theorem getV_setV_self (d : Doc) (k : String) (v : Value) :
    getV (setV d k v) k = some v := by
  unfold setV
  by_cases hk : hasK d k
  · rw [if_pos hk]; exact getV_replace_self d k v hk
  · rw [if_neg hk]
    exact getV_append_single_self d k v (by simpa using hk)

theorem getV_setV_of_ne (d : Doc) (k k2 : String) (v : Value) (h : k2 ≠ k) :
    getV (setV d k v) k2 = getV d k2 := by
  unfold setV
  by_cases hk : hasK d k
  · rw [if_pos hk]; exact getV_replace_of_ne d k k2 v h
  · rw [if_neg hk]; exact getV_append_single_of_ne d k k2 v h

theorem getV_eraseK_self (d : Doc) (k : String) :
    getV (eraseK d k) k = Option.none := by
  induction d with
  | nil => rfl
  | cons p d ih =>
    by_cases h : p.1 = k
    · rw [eraseK, List.filter_cons_of_neg (by simp [h])]
      exact ih
    · rw [eraseK, List.filter_cons_of_pos (by simp [h])]
      rw [getV_cons, if_neg h]
      exact ih

theorem getV_eraseK_of_ne (d : Doc) (k k2 : String) (h : k2 ≠ k) :
    getV (eraseK d k) k2 = getV d k2 := by
  induction d with
  | nil => rfl
  | cons p d ih =>
    by_cases hp : p.1 = k
    · have hp2 : ¬ p.1 = k2 := by rw [hp]; exact Ne.symm h
      rw [eraseK, List.filter_cons_of_neg (by simp [hp])]
      rw [getV_cons, if_neg hp2]
      exact ih
    · rw [eraseK, List.filter_cons_of_pos (by simp [hp])]
      rw [getV_cons, getV_cons]
      by_cases hp2 : p.1 = k2
      · rw [if_pos hp2, if_pos hp2]
      · rw [if_neg hp2, if_neg hp2]; exact ih

/-! ### The identifier normalizer -/

theorem setV_ne_nil (d : Doc) (k : String) (v : Value) : setV d k v ≠ [] := by
  unfold setV
  by_cases hk : hasK d k
  · rw [if_pos hk]
    cases d with
    | nil => simp [hasK] at hk
    | cons p d => simp
  · rw [if_neg hk]; simp

theorem normMove_of_getV_none (d : Doc) (h : getV d "_id" = Option.none) :
    normMove d = d := by
  unfold normMove
  rw [h]

theorem normMove_of_falsy (d : Doc) (v : Value) (h : getV d "_id" = some v)
    (hf : truthy v = false) : normMove d = d := by
  unfold normMove
  rw [h]
  simp only []
  rw [if_neg (by simp [hf])]

theorem normMove_ne_nil (d : Doc) (h : d ≠ []) : normMove d ≠ [] := by
  unfold normMove
  rcases hg : getV d "_id" with _ | v
  · exact h
  · simp only []
    by_cases ht : truthy v
    · rw [if_pos ht]; exact setV_ne_nil _ _ _
    · rw [if_neg ht]; exact h

theorem mapConv_ne_nil (d : Doc) (h : d ≠ []) : mapConv d ≠ [] := by
  unfold mapConv
  simpa using h

theorem normDoc_ne_nil (d : Doc) (h : d ≠ []) : normDoc d ≠ [] :=
  mapConv_ne_nil _ (normMove_ne_nil d h)

theorem to_str_id_some (d : Doc) (h : d ≠ []) :
    to_str_id (some d) = some (normDoc d) := by
  unfold to_str_id
  simp only []
  rw [if_neg (by simpa using h)]

/-- After `normDoc`, the native field is gone whenever it held a truthy
value, and otherwise keeps its (falsy, conversion-invariant) value. -/
theorem getV_normDoc_id_native (d : Doc) :
    getV (normDoc d) "_id" =
      match getV d "_id" with
      | some v => if truthy v then Option.none else some v
      | Option.none => Option.none := by
  unfold normDoc normMove
  rcases hg : getV d "_id" with _ | v
  · simp only []
    rw [getV_mapConv, hg]
    rfl
  · simp only []
    by_cases ht : truthy v
    · rw [if_pos ht, if_pos ht, getV_mapConv,
        getV_setV_of_ne _ _ _ _ (by decide), getV_eraseK_self]
      rfl
    · rw [if_neg ht, if_neg ht, getV_mapConv, hg]
      simp [convVal_of_falsy v (by simpa using ht)]

theorem normDoc_idem (d : Doc) : normDoc (normDoc d) = normDoc d := by
  have hid := getV_normDoc_id_native d
  rcases hg : getV d "_id" with _ | v
  · rw [hg] at hid
    simp only [] at hid
    show mapConv (normMove (normDoc d)) = normDoc d
    rw [normMove_of_getV_none _ hid]
    unfold normDoc
    exact mapConv_mapConv _
  · rw [hg] at hid
    simp only [] at hid
    by_cases ht : truthy v
    · rw [if_pos ht] at hid
      show mapConv (normMove (normDoc d)) = normDoc d
      rw [normMove_of_getV_none _ hid]
      unfold normDoc
      exact mapConv_mapConv _
    · rw [if_neg ht] at hid
      show mapConv (normMove (normDoc d)) = normDoc d
      rw [normMove_of_falsy _ v hid (by simpa using ht)]
      unfold normDoc
      exact mapConv_mapConv _

theorem convVal_oidFree (v : Value) : valueOidFree (convVal v) = true := by
  cases v with
  | scal s => cases s <;> rfl
  | list l =>
    simp only [convVal, valueOidFree, List.all_eq_true]
    intro e he
    rcases List.mem_map.mp he with ⟨a, _, rfl⟩
    cases a <;> rfl

theorem docOidFree_mapConv (d : Doc) : docOidFree (mapConv d) = true := by
  simp only [docOidFree, mapConv, List.all_eq_true]
  intro p hp
  rcases List.mem_map.mp hp with ⟨q, _, rfl⟩
  exact convVal_oidFree q.2

theorem getV_ne_nil {d : Doc} {k : String} {v : Value}
    (h : getV d k = some v) : d ≠ [] := by
  intro e
  subst e
  simp [getV] at h

/-- C1: for a stored document whose native field `"_id"` holds a native
identifier `X`, `to_str_id` exposes `str(X)` under the external field
`"id"`, drops the native field, and no field of the result — scalar or
sequence element — holds a native-typed identifier. -/
theorem to_str_id_exposes_external_id (d : Doc) (x : String)
    (h : getV d "_id" = some (.scal (.oid x))) :
    to_str_id (some d) = some (normDoc d) ∧
    getV (normDoc d) "id" = some (.scal (.str x)) ∧
    hasK (normDoc d) "_id" = false ∧
    docOidFree (normDoc d) = true := by
  refine ⟨to_str_id_some d (getV_ne_nil h), ?_, ?_, ?_⟩
  · unfold normDoc normMove
    rw [h]
    simp only []
    rw [if_pos (by rfl)]
    rw [getV_mapConv, getV_setV_self]
    rfl
  · rw [hasK_eq_isSome, getV_normDoc_id_native, h]
    rfl
  · exact docOidFree_mapConv _

/-- Witness for C1 at a concrete stored document. -/
theorem to_str_id_exposes_external_id_witness :
    to_str_id (some [("_id", .scal (.oid "507f1f77bcf86cd799439011")),
                     ("name", .scal (.str "Dr. Maya Patel")),
                     ("friend_ids", .list [.oid "ffff", .str "kept"])]) =
      some (normDoc [("_id", .scal (.oid "507f1f77bcf86cd799439011")),
                     ("name", .scal (.str "Dr. Maya Patel")),
                     ("friend_ids", .list [.oid "ffff", .str "kept"])]) ∧
    getV (normDoc [("_id", .scal (.oid "507f1f77bcf86cd799439011")),
                   ("name", .scal (.str "Dr. Maya Patel")),
                   ("friend_ids", .list [.oid "ffff", .str "kept"])]) "id" =
      some (.scal (.str "507f1f77bcf86cd799439011")) ∧
    hasK (normDoc [("_id", .scal (.oid "507f1f77bcf86cd799439011")),
                   ("name", .scal (.str "Dr. Maya Patel")),
                   ("friend_ids", .list [.oid "ffff", .str "kept"])]) "_id" = false ∧
    docOidFree (normDoc [("_id", .scal (.oid "507f1f77bcf86cd799439011")),
                         ("name", .scal (.str "Dr. Maya Patel")),
                         ("friend_ids", .list [.oid "ffff", .str "kept"])]) = true :=
  to_str_id_exposes_external_id _ "507f1f77bcf86cd799439011" (by decide)

/-- C2: the identifier normalizer is idempotent, and a no-op on an absent
input. -/
theorem to_str_id_idempotent :
    (∀ od : Option Doc, to_str_id (to_str_id od) = to_str_id od) ∧
    to_str_id Option.none = Option.none := by
  refine ⟨?_, rfl⟩
  intro od
  rcases od with _ | d
  · rfl
  · by_cases hd : d = []
    · subst hd; rfl
    · rw [to_str_id_some d hd, to_str_id_some _ (normDoc_ne_nil d hd),
        normDoc_idem]

/-- C10: when the native field holds a falsy value, `to_str_id` does not
relocate it — the native field keeps its value and the external `"id"` field
is present afterwards exactly when it was present before. -/
theorem to_str_id_falsy_native_id_untouched (d : Doc) (v : Value)
    (h : getV d "_id" = some v) (hf : truthy v = false) :
    to_str_id (some d) = some (normDoc d) ∧
    getV (normDoc d) "_id" = some v ∧
    hasK (normDoc d) "id" = hasK d "id" := by
  refine ⟨to_str_id_some d (getV_ne_nil h), ?_, ?_⟩
  · rw [getV_normDoc_id_native, h]
    simp only []
    rw [if_neg (by simp [hf])]
  · show hasK (mapConv (normMove d)) "id" = hasK d "id"
    rw [normMove_of_falsy d v h hf, hasK_mapConv]

/-- Witness for C10 at a concrete document with `_id = None`. -/
theorem to_str_id_falsy_native_id_untouched_witness :
    to_str_id (some [("_id", .scal .none), ("name", .scal (.str "n"))]) =
      some (normDoc [("_id", .scal .none), ("name", .scal (.str "n"))]) ∧
    getV (normDoc [("_id", .scal .none), ("name", .scal (.str "n"))]) "_id" =
      some (.scal .none) ∧
    hasK (normDoc [("_id", .scal .none), ("name", .scal (.str "n"))]) "id" =
      hasK [("_id", .scal .none), ("name", .scal (.str "n"))] "id" :=
  to_str_id_falsy_native_id_untouched _ _ (by decide) (by decide)

/-! ### Validation-layer lemmas -/

theorem except_bind_ok {ε α β : Type} (x : Except ε α) (f : α → Except ε β)
    (b : β) (h : x.bind f = .ok b) : ∃ a, x = .ok a ∧ f a = .ok b := by
  cases x with
  | error e => simp [Except.bind] at h
  | ok a => exact ⟨a, rfl, by simpa [Except.bind] using h⟩

theorem except_map_ok {ε α β : Type} (x : Except ε α) (f : α → β) (b : β)
    (h : f <$> x = .ok b) : ∃ a, x = .ok a ∧ f a = b := by
  cases x with
  | error e => simp [Functor.map, Except.map] at h
  | ok a =>
    refine ⟨a, rfl, ?_⟩
    simpa [Functor.map, Except.map] using h

theorem except_map_error {ε α β : Type} (x : Except ε α) (f : α → β) (e : ε) :
    x.map f = .error e ↔ x = .error e := by
  cases x <;> simp [Except.map]

/-- Every `.ok` result of `validateUser` decomposes into the per-field
validators succeeding on exactly the record's field values. -/
theorem validateUser_ok_parts (raw : Doc) (u : User)
    (h : validateUser raw = .ok u) :
    reqStr raw "role" = .ok u.role ∧
    reqStr raw "name" = .ok u.name ∧
    reqEmail raw "email" = .ok u.email ∧
    optStr raw "photo_url" = .ok u.photo_url ∧
    optStr raw "bio" = .ok u.bio ∧
    seqStr raw "specialties" = .ok u.specialties ∧
    seqStr raw "modalities" = .ok u.modalities ∧
    seqStr raw "languages" = .ok u.languages ∧
    optStr raw "location" = .ok u.location ∧
    defBool raw "virtual" true = .ok u.virtual ∧
    defBool raw "in_person" false = .ok u.in_person ∧
    optInt raw "fee_min" = .ok u.fee_min ∧
    optInt raw "fee_max" = .ok u.fee_max ∧
    optInt raw "years_experience" = .ok u.years_experience ∧
    seqStr raw "certifications" = .ok u.certifications := by
  unfold validateUser at h
  obtain ⟨role, h1, h⟩ := except_bind_ok _ _ _ h
  obtain ⟨name, h2, h⟩ := except_bind_ok _ _ _ h
  obtain ⟨email, h3, h⟩ := except_bind_ok _ _ _ h
  obtain ⟨photo_url, h4, h⟩ := except_bind_ok _ _ _ h
  obtain ⟨bio, h5, h⟩ := except_bind_ok _ _ _ h
  obtain ⟨specialties, h6, h⟩ := except_bind_ok _ _ _ h
  obtain ⟨modalities, h7, h⟩ := except_bind_ok _ _ _ h
  obtain ⟨languages, h8, h⟩ := except_bind_ok _ _ _ h
  obtain ⟨location, h9, h⟩ := except_bind_ok _ _ _ h
  obtain ⟨virt, h10, h⟩ := except_bind_ok _ _ _ h
  obtain ⟨inp, h11, h⟩ := except_bind_ok _ _ _ h
  obtain ⟨fee_min, h12, h⟩ := except_bind_ok _ _ _ h
  obtain ⟨fee_max, h13, h⟩ := except_bind_ok _ _ _ h
  obtain ⟨years, h14, h⟩ := except_bind_ok _ _ _ h
  obtain ⟨certs, h15, h⟩ := except_map_ok _ _ _ h
  subst h
  exact ⟨h1, h2, h3, h4, h5, h6, h7, h8, h9, h10, h11, h12, h13, h14, h15⟩

/-- Every `.ok` result of `validateBookingRequest` decomposes into the
per-field validators succeeding on exactly the record's field values. -/
theorem validateBookingRequest_ok_parts (raw : Doc) (b : BookingRequest)
    (h : validateBookingRequest raw = .ok b) :
    reqStr raw "therapist_id" = .ok b.therapist_id ∧
    reqStr raw "client_name" = .ok b.client_name ∧
    reqEmail raw "client_email" = .ok b.client_email ∧
    optStr raw "note" = .ok b.note ∧
    seqStr raw "preferred_times" = .ok b.preferred_times ∧
    defStr raw "status" "pending" = .ok b.status := by
  unfold validateBookingRequest at h
  obtain ⟨tid, h1, h⟩ := except_bind_ok _ _ _ h
  obtain ⟨cn, h2, h⟩ := except_bind_ok _ _ _ h
  obtain ⟨ce, h3, h⟩ := except_bind_ok _ _ _ h
  obtain ⟨note, h4, h⟩ := except_bind_ok _ _ _ h
  obtain ⟨pt, h5, h⟩ := except_bind_ok _ _ _ h
  obtain ⟨st, h6, h⟩ := except_map_ok _ _ _ h
  subst h
  exact ⟨h1, h2, h3, h4, h5, h6⟩

theorem elemsStr_error (k : String) (l : List Scal) (e : ValidationError)
    (h : elemsStr k l = .error e) : e = .InvalidFormatError k := by
  induction l with
  | nil => simp [elemsStr] at h
  | cons a l ih =>
    cases a with
    | str s =>
      simp only [elemsStr] at h
      rw [except_map_error] at h
      exact ih h
    | none => simpa [elemsStr] using h.symm
    | bool b => simpa [elemsStr] using h.symm
    | int n => simpa [elemsStr] using h.symm
    | oid o => simpa [elemsStr] using h.symm

theorem reqSeqStr_error (raw : Doc) (k : String) (e : ValidationError)
    (h : reqSeqStr raw k = .error e) :
    e = .MissingFieldError k ∨ e = .InvalidFormatError k := by
  unfold reqSeqStr at h
  rcases hg : getV raw k with _ | v <;> rw [hg] at h
  · exact Or.inl (by simpa using h.symm)
  · rcases v with sc | l
    · cases sc
      case none => exact Or.inl (by simpa using h.symm)
      all_goals exact Or.inr (by simpa using h.symm)
    · exact Or.inr (elemsStr_error k l e h)

theorem defBool_error (raw : Doc) (k : String) (dflt : Bool)
    (e : ValidationError) (h : defBool raw k dflt = .error e) :
    e = .InvalidFormatError k := by
  unfold defBool at h
  rcases hg : getV raw k with _ | v <;> rw [hg] at h
  · simp at h
  · rcases v with sc | l
    · cases sc <;> simpa using h.symm
    · simpa using h.symm

/-! ### Filter-predicate lemmas -/

theorem evalCond_regexI_iff (d : Doc) (k s : String) :
    evalCond d k (.regexI s) = true ↔ fieldMatchCI d k s := by
  unfold evalCond fieldMatchCI
  rcases hg : getV d k with _ | v
  · simp
  · rcases v with sc | l
    · rcases sc with _ | b | n | t | o
      · simp
      · simp
      · simp
      · simp only [Option.some.injEq, Value.scal.injEq, Scal.str.injEq,
          strContainsCI_iff]
        constructor
        · rintro ⟨l, r, hlr⟩
          exact ⟨t, l, r, rfl, hlr⟩
        · rintro ⟨v, l, r, rfl, hlr⟩
          exact ⟨l, r, hlr⟩
      · simp
    · simp

theorem evalCond_elemMatch_iff (d : Doc) (k s : String) :
    evalCond d k (.elemMatchRegexI s) = true ↔ seqFieldMatchCI d k s := by
  unfold evalCond seqFieldMatchCI
  rcases hg : getV d k with _ | v
  · simp
  · rcases v with sc | l
    · cases sc <;> simp
    · simp only [Option.some.injEq, Value.list.injEq, List.any_eq_true]
      constructor
      · rintro ⟨e, he, hme⟩
        cases e with
        | str x =>
          simp only [] at hme
          rw [strContainsCI_iff] at hme
          rcases hme with ⟨l1, r1, h1⟩
          exact ⟨l, x, l1, r1, rfl, he, h1⟩
        | none => simp at hme
        | bool b => simp at hme
        | int n => simp at hme
        | oid o => simp at hme
      · rintro ⟨es, x, l1, r1, rfl, hx, h1⟩
        refine ⟨.str x, hx, ?_⟩
        simp only []
        rw [strContainsCI_iff]
        exact ⟨l1, r1, h1⟩

/-- C3: the free-text search of `list_therapists` matches a document exactly
when, besides the fixed role restriction, the search string occurs as a
case-insensitive substring of the `name` field, of the `bio` field, or of
some element of the `specialties` sequence. -/
theorem list_therapists_search_matching (s : String) (d : Doc) (hs : s ≠ "") :
    evalQuery (list_therapists_query (some s) Option.none Option.none
        Option.none Option.none) d = true ↔
      (getV d "role" = some (.scal (.str "therapist")) ∧
        (fieldMatchCI d "name" s ∨ fieldMatchCI d "bio" s ∨
          seqFieldMatchCI d "specialties" s)) := by
  have hq : list_therapists_query (some s) Option.none Option.none
      Option.none Option.none =
      [.field "role" (.eqVal (.scal (.str "therapist"))),
       .disj [("name", .regexI s), ("bio", .regexI s),
              ("specialties", .elemMatchRegexI s)]] := by
    unfold list_therapists_query
    simp only []
    rw [if_pos hs]
    rfl
  rw [hq]
  simp only [evalQuery, List.all_cons, List.all_nil, Bool.and_true,
    Bool.and_eq_true, evalClause, List.any_cons, List.any_nil, Bool.or_false,
    Bool.or_eq_true, beq_iff_eq, evalCond_regexI_iff, evalCond_elemMatch_iff]
  simp only [evalCond, beq_iff_eq]

/-- Witness for C3: a search for `"cbt"` matches a therapist document whose
`specialties` contains `"CBT"`. -/
theorem list_therapists_search_matching_witness :
    evalQuery (list_therapists_query (some "cbt") Option.none Option.none
        Option.none Option.none)
      [("role", .scal (.str "therapist")), ("name", .scal (.str "Dr. Maya")),
       ("specialties", .list [.str "Trauma", .str "CBT"])] = true :=
  (list_therapists_search_matching "cbt"
      [("role", .scal (.str "therapist")), ("name", .scal (.str "Dr. Maya")),
       ("specialties", .list [.str "Trauma", .str "CBT"])]
      (by decide)).mpr
    ⟨by rfl, Or.inr (Or.inr ⟨[.str "Trauma", .str "CBT"], "CBT", [], [],
      by rfl, by simp, by rfl⟩)⟩

/-- C5: the boolean filters of `list_therapists` are tri-state — an omitted
boolean parameter imposes no constraint, a supplied one requires exact
equality on the stored field, so `virtual=false` excludes every document
with `virtual=true`. -/
theorem list_therapists_bool_filters_tristate (d : Doc) (b : Bool) :
    (evalQuery (list_therapists_query Option.none Option.none Option.none
        Option.none Option.none) d =
      (getV d "role" == some (.scal (.str "therapist")))) ∧
    (evalQuery (list_therapists_query Option.none Option.none Option.none
        (some b) Option.none) d =
      ((getV d "role" == some (.scal (.str "therapist"))) &&
        (getV d "virtual" == some (.scal (.bool b))))) ∧
    (evalQuery (list_therapists_query Option.none Option.none Option.none
        Option.none (some b)) d =
      ((getV d "role" == some (.scal (.str "therapist"))) &&
        (getV d "in_person" == some (.scal (.bool b))))) ∧
    (getV d "virtual" = some (.scal (.bool true)) →
      evalQuery (list_therapists_query Option.none Option.none Option.none
        (some false) Option.none) d = false) := by
  refine ⟨?_, ?_, ?_, ?_⟩
  · simp [list_therapists_query, evalQuery, evalClause, evalCond]
  · simp [list_therapists_query, evalQuery, evalClause, evalCond]
  · simp [list_therapists_query, evalQuery, evalClause, evalCond]
  · intro h
    simp [list_therapists_query, evalQuery, evalClause, evalCond, h]

/-- Witness for C5: with `virtual=false` supplied, a virtual therapist
document does not match. -/
theorem list_therapists_bool_filters_tristate_witness :
    evalQuery (list_therapists_query Option.none Option.none Option.none
        (some false) Option.none)
      [("role", .scal (.str "therapist")), ("virtual", .scal (.bool true))] =
      false :=
  (list_therapists_bool_filters_tristate
      [("role", .scal (.str "therapist")), ("virtual", .scal (.bool true))]
      false).2.2.2 (by rfl)

/-- C9: supplying the empty string for a string-valued filter parameter
builds exactly the same query as omitting it — string parameters are tested
by truthiness — while a supplied boolean parameter does alter the query. -/
theorem empty_string_params_are_no_ops :
    (∀ (sp la : Option String) (v ip : Option Bool),
      list_therapists_query (some "") sp la v ip =
        list_therapists_query Option.none sp la v ip) ∧
    (∀ (se la : Option String) (v ip : Option Bool),
      list_therapists_query se (some "") la v ip =
        list_therapists_query se Option.none la v ip) ∧
    (∀ (se sp : Option String) (v ip : Option Bool),
      list_therapists_query se sp (some "") v ip =
        list_therapists_query se sp Option.none v ip) ∧
    (∀ ce, list_bookings_query (some "") ce =
      list_bookings_query Option.none ce) ∧
    (∀ tid, list_bookings_query tid (some "") =
      list_bookings_query tid Option.none) ∧
    (∀ tid ce, list_messages_query tid ce (some "") =
      list_messages_query tid ce Option.none) ∧
    decide (list_therapists_query Option.none Option.none Option.none
        (some false) Option.none =
      list_therapists_query Option.none Option.none Option.none Option.none
        Option.none) = false := by
  refine ⟨?_, ?_, ?_, ?_, ?_, ?_, by decide⟩
  · intro sp la v ip; rfl
  · intro se la v ip; cases se <;> rfl
  · intro se sp v ip; cases se <;> cases sp <;> rfl
  · intro ce; rfl
  · intro tid; cases tid <;> rfl
  · intro tid ce; cases tid <;> cases ce <;> rfl

/-! ### Validation claims -/

/-- Counterexample to C4 as stated: `TherapistAvailability.time_ranges` is
declared `Field(...)` — required — so validating an input in which the
sequence field is absent fails instead of defaulting to the empty sequence. -/
theorem time_ranges_absent_fails :
    validateTherapistAvailability
      [("therapist_id", .scal (.str "t1")), ("weekday", .scal (.int 2)),
       ("virtual", .scal (.bool true)), ("in_person", .scal (.bool false))] =
      .error (.MissingFieldError "time_ranges") := by
  rfl

/-- C4 (amended): sequence fields declared with `default_factory=list`
(`User.specialties/modalities/languages/certifications`,
`BookingRequest.preferred_times`) default to the empty sequence when absent;
`TherapistAvailability.time_ranges` is declared required and its absence
fails with `MissingFieldError("time_ranges")`. -/
theorem seq_fields_default_except_time_ranges :
    (∀ raw u, validateUser raw = .ok u →
      (getV raw "specialties" = Option.none → u.specialties = []) ∧
      (getV raw "modalities" = Option.none → u.modalities = []) ∧
      (getV raw "languages" = Option.none → u.languages = []) ∧
      (getV raw "certifications" = Option.none → u.certifications = [])) ∧
    (∀ raw b, validateBookingRequest raw = .ok b →
      (getV raw "preferred_times" = Option.none → b.preferred_times = [])) ∧
    (∀ raw tid (w : Int), getV raw "therapist_id" = some (.scal (.str tid)) →
      getV raw "weekday" = some (.scal (.int w)) → 0 ≤ w → w ≤ 6 →
      getV raw "time_ranges" = Option.none →
      validateTherapistAvailability raw =
        .error (.MissingFieldError "time_ranges")) := by
  refine ⟨?_, ?_, ?_⟩
  · intro raw u h
    obtain ⟨-, -, -, -, -, hsp, hmo, hla, -, -, -, -, -, -, hce⟩ :=
      validateUser_ok_parts raw u h
    refine ⟨fun ha => ?_, fun ha => ?_, fun ha => ?_, fun ha => ?_⟩
    · unfold seqStr at hsp; rw [ha] at hsp; simpa using hsp.symm
    · unfold seqStr at hmo; rw [ha] at hmo; simpa using hmo.symm
    · unfold seqStr at hla; rw [ha] at hla; simpa using hla.symm
    · unfold seqStr at hce; rw [ha] at hce; simpa using hce.symm
  · intro raw b h
    obtain ⟨-, -, -, -, hpt, -⟩ := validateBookingRequest_ok_parts raw b h
    intro ha
    unfold seqStr at hpt; rw [ha] at hpt; simpa using hpt.symm
  · intro raw tid w htid hw h0 h6 htr
    have h1 : reqStr raw "therapist_id" = .ok tid := by
      unfold reqStr; rw [htid]
    have h2 : reqIntRange raw "weekday" 0 6 = .ok w := by
      unfold reqIntRange; rw [hw]; simp only []; rw [if_pos ⟨h0, h6⟩]
    have h3 : reqSeqStr raw "time_ranges" =
        .error (.MissingFieldError "time_ranges") := by
      unfold reqSeqStr; rw [htr]
    unfold validateTherapistAvailability
    simp only [h1, h2, h3, Bind.bind, Except.bind]

/-- Witness for the amended C4: a `User` input without the sequence fields
validates to empty sequences, and a `TherapistAvailability` input without
`time_ranges` fails. -/
theorem seq_fields_default_except_time_ranges_witness :
    (User.mk "client" "Ann" "a@b.c" Option.none Option.none [] [] []
        Option.none true false Option.none Option.none Option.none
        []).specialties = [] ∧
    validateTherapistAvailability
      [("therapist_id", .scal (.str "t9")), ("weekday", .scal (.int 3))] =
      .error (.MissingFieldError "time_ranges") :=
  ⟨(seq_fields_default_except_time_ranges.1
      [("role", .scal (.str "client")), ("name", .scal (.str "Ann")),
       ("email", .scal (.str "a@b.c"))]
      (User.mk "client" "Ann" "a@b.c" Option.none Option.none [] [] []
        Option.none true false Option.none Option.none Option.none [])
      (by rfl)).1 (by rfl),
   seq_fields_default_except_time_ranges.2.2
      [("therapist_id", .scal (.str "t9")), ("weekday", .scal (.int 3))]
      "t9" 3 (by rfl) (by rfl) (by decide) (by decide) (by rfl)⟩

/-- C6: with the other fields well-formed, a `weekday` outside `[0, 6]`
makes `TherapistAvailability` validation fail with
`RangeError("weekday", 0, 6)`, and any `weekday` inside `[0, 6]` passes the
range check — no `RangeError` can be produced. -/
theorem weekday_range_check (raw : Doc) (tid : String) (w : Int)
    (htid : getV raw "therapist_id" = some (.scal (.str tid)))
    (hw : getV raw "weekday" = some (.scal (.int w))) :
    (¬(0 ≤ w ∧ w ≤ 6) →
      validateTherapistAvailability raw = .error (.RangeError "weekday" 0 6)) ∧
    ((0 ≤ w ∧ w ≤ 6) →
      ∀ k lo hi,
        validateTherapistAvailability raw ≠ .error (.RangeError k lo hi)) := by
  have h1 : reqStr raw "therapist_id" = .ok tid := by
    unfold reqStr; rw [htid]
  constructor
  · intro hout
    have h2 : reqIntRange raw "weekday" 0 6 =
        .error (.RangeError "weekday" 0 6) := by
      unfold reqIntRange; rw [hw]; simp only []; rw [if_neg hout]
    unfold validateTherapistAvailability
    simp only [h1, h2, Bind.bind, Except.bind]
  · intro hin k lo hi hcontra
    have h2 : reqIntRange raw "weekday" 0 6 = .ok w := by
      unfold reqIntRange; rw [hw]; simp only []; rw [if_pos hin]
    unfold validateTherapistAvailability at hcontra
    simp only [h1, h2, Bind.bind, Except.bind] at hcontra
    rcases h3 : reqSeqStr raw "time_ranges" with e | tr <;> rw [h3] at hcontra
    · rcases reqSeqStr_error raw _ e h3 with rfl | rfl <;> simp at hcontra
    · simp only [] at hcontra
      rcases h4 : defBool raw "virtual" true with e | virt <;> rw [h4] at hcontra
      · rw [defBool_error raw _ _ e h4] at hcontra; simp at hcontra
      · simp only [] at hcontra
        rcases h5 : defBool raw "in_person" false with e | inp <;>
          rw [h5] at hcontra
        · rw [defBool_error raw _ _ e h5] at hcontra; simp at hcontra
        · simp [Functor.map, Except.map, Pure.pure, Except.pure] at hcontra

/-- Witness for C6: `weekday = 9` fails with the range error. -/
theorem weekday_range_check_witness :
    validateTherapistAvailability
      [("therapist_id", .scal (.str "t1")), ("weekday", .scal (.int 9))] =
      .error (.RangeError "weekday" 0 6) :=
  (weekday_range_check
      [("therapist_id", .scal (.str "t1")), ("weekday", .scal (.int 9))]
      "t1" 9 (by rfl) (by rfl)).1 (by decide)

/-- C7: validating a `User` input that omits `specialties` yields
`specialties = []`, and one that omits `virtual` yields `virtual = true`. -/
theorem validateUser_defaults (raw : Doc) (u : User)
    (h : validateUser raw = .ok u) :
    (getV raw "specialties" = Option.none → u.specialties = []) ∧
    (getV raw "virtual" = Option.none → u.virtual = true) := by
  obtain ⟨-, -, -, -, -, hsp, -, -, -, hvi, -, -, -, -, -⟩ :=
    validateUser_ok_parts raw u h
  constructor
  · intro ha
    unfold seqStr at hsp; rw [ha] at hsp; simpa using hsp.symm
  · intro ha
    unfold defBool at hvi; rw [ha] at hvi; simpa using hvi.symm

/-- Witness for C7 at a concrete raw input omitting both fields. -/
theorem validateUser_defaults_witness :
    (User.mk "client" "Bea" "b@c.d" Option.none Option.none [] [] []
        Option.none true false Option.none Option.none Option.none
        []).specialties = [] ∧
    (User.mk "client" "Bea" "b@c.d" Option.none Option.none [] [] []
        Option.none true false Option.none Option.none Option.none
        []).virtual = true :=
  ⟨(validateUser_defaults
      [("role", .scal (.str "client")), ("name", .scal (.str "Bea")),
       ("email", .scal (.str "b@c.d"))]
      (User.mk "client" "Bea" "b@c.d" Option.none Option.none [] [] []
        Option.none true false Option.none Option.none Option.none [])
      (by rfl)).1 (by rfl),
   (validateUser_defaults
      [("role", .scal (.str "client")), ("name", .scal (.str "Bea")),
       ("email", .scal (.str "b@c.d"))]
      (User.mk "client" "Bea" "b@c.d" Option.none Option.none [] [] []
        Option.none true false Option.none Option.none Option.none [])
      (by rfl)).2 (by rfl)⟩

/-- C8: the therapist-creation write path enforces `role == "therapist"` for
every structurally valid `User` input: a non-therapist role fails with the
business-rule error and leaves the store unchanged; a therapist role inserts
the record. -/
theorem create_therapist_role_rule (store : UserStore) (raw : Doc) (u : User)
    (_hv : validateUser raw = .ok u) :
    (u.role ≠ "therapist" →
      create_therapist store u =
        (store, .error (.mk "role must be 'therapist'"))) ∧
    (u.role = "therapist" →
      create_therapist store u = (store ++ [u], .ok store.length)) := by
  constructor
  · intro hr
    unfold create_therapist
    rw [if_pos hr]
  · intro hr
    unfold create_therapist
    rw [if_neg (by simp [hr])]

/-- Witness for C8: a valid client record is rejected with the store left
empty; a valid therapist record is inserted. -/
theorem create_therapist_role_rule_witness :
    create_therapist []
      (User.mk "client" "Ann" "a@b.c" Option.none Option.none [] [] []
        Option.none true false Option.none Option.none Option.none []) =
      ([], .error (.mk "role must be 'therapist'")) ∧
    create_therapist []
      (User.mk "therapist" "Maya" "m@p.q" Option.none Option.none [] [] []
        Option.none true false Option.none Option.none Option.none []) =
      ([User.mk "therapist" "Maya" "m@p.q" Option.none Option.none [] [] []
        Option.none true false Option.none Option.none Option.none []],
       .ok 0) :=
  ⟨(create_therapist_role_rule []
      [("role", .scal (.str "client")), ("name", .scal (.str "Ann")),
       ("email", .scal (.str "a@b.c"))]
      (User.mk "client" "Ann" "a@b.c" Option.none Option.none [] [] []
        Option.none true false Option.none Option.none Option.none [])
      (by rfl)).1 (by decide),
   (create_therapist_role_rule []
      [("role", .scal (.str "therapist")), ("name", .scal (.str "Maya")),
       ("email", .scal (.str "m@p.q"))]
      (User.mk "therapist" "Maya" "m@p.q" Option.none Option.none [] [] []
        Option.none true false Option.none Option.none Option.none [])
      (by rfl)).2 (by rfl)⟩

end Psylio
